import Mathlib

/-!
Verification development for the CustomCrosshair overlay utility
(`customcrosshair.py`). The Python source is shallowly embedded:

* Python's dynamically typed values (as they appear in the configuration
  fields, the JSON settings record, and the widget calls) are modelled by
  `PyVal`; Python `int` is `ℤ`, Python `float` is modelled exactly by `ℚ`,
  and Python tuples and lists are conflated into `PyVal.list` (the JSON
  round trip performed by `json.dump`/`json.load` makes the same
  identification, so nothing observable is lost).
* The crosshair configuration owned by `CrosshairOverlay.__init__`
  (lines 38-58) becomes the structure `Config`; the widget objects
  (sliders, checkboxes, labels) are not modelled, but the widget calls
  made by the embedded functions are kept as guards wherever they can
  raise, because a raise changes the observable outcome.
* `re.search` with the fixed pattern
  `0;P;.*?0t;(\d+);0l;(\d+);0o;(\d+);0a;(\d+);0f;(\d+);1t;(\d+);1o;(\d+);1a;(\d+)`
  is embedded as an executable scanner over `List Char`:
  the literal fragments and the greedy `\d+` groups are deterministic
  (a digit run followed by a required non-digit literal never backtracks),
  the lazy `.*?` gap tries shorter gaps first and never crosses a newline,
  and the search tries start positions left to right.
* Images are `Img` records carrying height, width, channel count and a
  pixel function; the OpenCV resize calls are external library calls and
  are passed in as a function parameter constrained only by its shape
  behaviour (`cv2.resize` returns the requested dimensions and keeps the
  channel count).
-/

namespace CustomCrosshair

/-- A scalar Python value (an element of a stored sequence). -/
inductive PyScalar where
  | int (n : ℤ)
  | float (q : ℚ)
  | bool (b : Bool)
  | str (s : String)
  | none
deriving DecidableEq

/-- A dynamically typed Python value as it can appear in a configuration
field or in the JSON settings record.  Python tuples and lists are both
`list` (see the module docstring); the program only ever stores flat
sequences of scalars (colour triples and character tuples), so list
elements are `PyScalar`. -/
inductive PyVal where
  | int (n : ℤ)
  | float (q : ℚ)
  | bool (b : Bool)
  | str (s : String)
  | list (l : List PyScalar)
  | none
deriving DecidableEq

/-- The scalar crosshair configuration fields initialised in
`CrosshairOverlay.__init__` (lines 38-58).  The optional custom image is
kept separately in `Overlay` because it is not a scalar setting. -/
structure Config where
  size : PyVal
  color : PyVal
  outline_color : PyVal
  thickness : PyVal
  outline_thickness : PyVal
  show_outline : PyVal
  inner_length : PyVal
  inner_opacity : PyVal
  show_inner : PyVal
  outer_length : PyVal
  outer_opacity : PyVal
  show_outer : PyVal
  show_dot : PyVal
  dot_opacity : PyVal
  dot_size : PyVal
deriving DecidableEq

/-- The defaults assigned in `CrosshairOverlay.__init__` (lines 38-58). -/
def defaultConfig : Config where
  size := .int 100
  color := .list [.int 0, .int 255, .int 0]
  outline_color := .list [.int 0, .int 0, .int 0]
  thickness := .int 2
  outline_thickness := .int 1
  show_outline := .bool false
  inner_length := .int 4
  inner_opacity := .float 1
  show_inner := .bool true
  outer_length := .int 0
  outer_opacity := .float 1
  show_outer := .bool true
  show_dot := .bool false
  dot_opacity := .float 1
  dot_size := .int 2

/-- Outcome of an operation, as observable through the diagnostic prints:
`silent` = returned without printing anything, `ok` = success message,
`invalid` = the "Invalid Valorant crosshair code format" message,
`err` = an exception was caught and reported. -/
inductive Outcome where
  | silent
  | ok
  | invalid
  | err
deriving DecidableEq

/-! ### The crosshair-code regular expression (lines 478-479) -/

/-- Match a literal fragment of the pattern at the head of the input and
return the remaining input. -/
def matchLit : List Char → List Char → Option (List Char)
  | [], l => some l
  | _ :: _, [] => Option.none
  | c :: cs, x :: xs => if x = c then matchLit cs xs else Option.none

/-- Decimal value of a digit run, as computed by Python `int` on a
`\d+` capture. -/
def natOfDigits (ds : List Char) : ℕ :=
  ds.foldl (fun a c => 10 * a + (c.toNat - 48)) 0

/-- Match one `(\d+)` group at the head of the input: take the maximal
digit run (the group is immediately followed by a non-digit literal or the
end of the pattern, so the greedy run never backtracks) and return its
decimal value together with the remaining input. -/
def matchNum (l : List Char) : Option (ℕ × List Char) :=
  let ds := l.takeWhile Char.isDigit
  if ds.isEmpty then Option.none
  else some (natOfDigits ds, l.dropWhile Char.isDigit)

/-- Match an alternating sequence of literal fragments and `(\d+)` groups,
returning the captured values. -/
def matchFields : List (List Char) → List Char → Option (List ℕ × List Char)
  | [], l => some ([], l)
  | lit :: rest, l =>
    match matchLit lit l with
    | Option.none => Option.none
    | some l1 =>
      match matchNum l1 with
      | Option.none => Option.none
      | some (n, l2) =>
        match matchFields rest l2 with
        | Option.none => Option.none
        | some (ns, l3) => some (n :: ns, l3)

/-- The literal fragments between the eight capture groups of the pattern
after the `0;P;` marker and the lazy gap. -/
def valorantLits : List (List Char) :=
  ["0t;".data, ";0l;".data, ";0o;".data, ";0a;".data,
   ";0f;".data, ";1t;".data, ";1o;".data, ";1a;".data]

/-- Match `0t;(\d+);0l;(\d+);0o;(\d+);0a;(\d+);0f;(\d+);1t;(\d+);1o;(\d+);1a;(\d+)`
at the head of the input. -/
def matchTail (l : List Char) : Option (List ℕ × List Char) :=
  matchFields valorantLits l

/-- The lazy gap `.*?` followed by the tail of the pattern: try the tail at
the current position first, otherwise consume one character (which must not
be a newline, since `.` does not match `\n`) and retry. -/
def tryGap : List Char → Option (List ℕ)
  | [] =>
    match matchTail [] with
    | some (ns, _) => some ns
    | Option.none => Option.none
  | c :: t =>
    match matchTail (c :: t) with
    | some (ns, _) => some ns
    | Option.none => if c = '\n' then Option.none else tryGap t

/-- The literal `0;P;` marker that anchors the pattern. -/
def pMarker : List Char := "0;P;".data

/-- `re.search`: try every start position from the left; at each position
the pattern requires the literal `0;P;` and then the gap and tail. -/
def searchFrom : List Char → Option (List ℕ)
  | [] => Option.none
  | c :: t =>
    match matchLit pMarker (c :: t) with
    | some rest =>
      match tryGap rest with
      | some ns => some ns
      | Option.none => searchFrom t
    | Option.none => searchFrom t

/-- The whole-code search performed at line 479. -/
def searchValorant (code : List Char) : Option (List ℕ) :=
  searchFrom code

/-- `SettingsWindow.parse_valorant_code` (lines 456-511), restricted to its
effect on the configuration fields.  An empty input returns before the
`try` block without printing anything (line 458-459).  On a match the
eight captured groups are converted with `int` and assigned (lines
483-498); the parsed inner offset (group 5) is bound to a local variable
and never assigned to a field.  The subsequent widget updates
(`setChecked`/`setValue`, lines 501-503) and the re-render cannot raise.
A slider `setValue` clamps to the 0-100 range and, when the position
actually changes, its change signal re-invokes the opacity callback with
the clamped value; the embedding keeps the direct assignments, which is
the final state whenever the percentage is within the slider range (the
callback rewrites the same value) or the slider already sits at the
clamped position so that no signal fires (as at start-up, both sliders
at 100).  Without a match nothing is assigned and the invalid-format
message is printed (line 509). -/
def parse_valorant_code (cfg : Config) (code : List Char) : Config × Outcome :=
  if code = [] then (cfg, .silent)
  else
    match searchValorant code with
    | some [o, il, ol, iop, _ioff, othk, oop, oopm] =>
      ({ cfg with
          show_outline := .bool (o ≠ 0)
          inner_length := .int (il * 2)
          outer_length := .int (ol * 2)
          inner_opacity := .float ((iop : ℚ) / 100)
          outline_thickness := .int (othk : ℤ)
          outer_opacity := .float (((oop : ℚ) * (oopm : ℚ)) / 100) }, .ok)
    | some _ => (cfg, .invalid)
    | Option.none => (cfg, .invalid)

/-! ### Settings persistence (lines 559-622) -/

/-- The flat JSON settings record.  `json.dump` followed by `json.load`
reproduces every value in this universe exactly (tuples come back as
lists, which `PyVal` already identifies), so the file round trip is the
identity on records. -/
def Record : Type := List (String × PyVal)

/-- `settings.get(key, default)` on the loaded record. -/
def rget (r : Record) (k : String) (d : PyVal) : PyVal :=
  match List.lookup k r with
  | some v => v
  | Option.none => d

/-- `SettingsWindow.save_settings` (lines 559-583): the record written to
`crosshair_settings.json`, fields in source order. -/
def save_settings (c : Config) : Record :=
  [("size", c.size),
   ("color", c.color),
   ("outline_color", c.outline_color),
   ("thickness", c.thickness),
   ("outline_thickness", c.outline_thickness),
   ("show_outline", c.show_outline),
   ("inner_length", c.inner_length),
   ("inner_opacity", c.inner_opacity),
   ("show_inner", c.show_inner),
   ("outer_length", c.outer_length),
   ("outer_opacity", c.outer_opacity),
   ("show_outer", c.show_outer),
   ("show_dot", c.show_dot),
   ("dot_opacity", c.dot_opacity),
   ("dot_size", c.dot_size)]

/-- Python `tuple(x)` as used at line 594: succeeds on sequences (lists,
tuples, strings — a string yields the tuple of its characters) and raises
`TypeError` on non-iterable values. -/
def tupleOf : PyVal → Option PyVal
  | .list l => some (.list l)
  | .str s => some (.list (s.data.map fun c => .str (String.mk [c])))
  | _ => Option.none

/-- Python `int(x * 100)` as evaluated at lines 611-612 for the opacity
slider updates: numbers multiply and truncate toward zero; a string is
repeated 100 times by `*` and then parsed by `int` only if it is a
non-empty digit string; everything else raises. -/
def pyTimes100ToInt (v : PyVal) : Option ℤ :=
  match v with
  | .int n => some (n * 100)
  | .bool b => some (if b then (100 : ℤ) else 0)
  | .float q =>
    some (if 0 ≤ q * 100 then ⌊q * 100⌋ else ⌈q * 100⌉)
  | .str s =>
    if s.data ≠ [] ∧ s.data.all Char.isDigit then
      some ((natOfDigits ((List.replicate 100 s.data).flatten) : ℤ))
    else Option.none
  | _ => Option.none

/-- Whether a value is acceptable to `QSlider.setValue` (an `int`;
Python `bool` is a subtype of `int`). -/
def isIntLike : PyVal → Bool
  | .int _ => true
  | .bool _ => true
  | _ => false

/-- Whether a value is acceptable to `QCheckBox.setChecked`. -/
def isBoolVal : PyVal → Bool
  | .bool _ => true
  | _ => false

/-- Whether the widget-update section of `load_settings` (lines 609-616)
runs without raising: `setValue` needs integers for size and thickness and
`int(opacity * 100)` must evaluate for the two opacity sliders, and
`setChecked` needs booleans.  By the time any of these calls can raise
every configuration field has already been assigned, so the check is a
single guard after the assignments.  As in the decoder, a slider whose
position actually changes re-invokes the opacity callback with the
clamped position; after a save of the reachable state the slider already
sits at that position, so no signal fires and the assigned values stand. -/
def uiUpdatesOk (c : Config) : Bool :=
  isIntLike c.size && isIntLike c.thickness &&
  (pyTimes100ToInt c.inner_opacity).isSome &&
  (pyTimes100ToInt c.outer_opacity).isSome &&
  isBoolVal c.show_outline && isBoolVal c.show_inner &&
  isBoolVal c.show_outer && isBoolVal c.show_dot

/-- The body of the `try` block of `load_settings` (lines 590-620) given a
parsed record.  `.ok` is normal completion; `.error` carries the
configuration state at the moment an exception escaped to the handler.
The only fallible step among the field assignments is `tuple(...)` for
`color` (line 594; every other assignment stores `settings.get(...)`
verbatim), so the assignments after `color` are gathered into one update;
`outline_color` is saved but never loaded. -/
def loadFromRecord (c0 : Config) (r : Record) : Except Config Config :=
  let c1 : Config := { c0 with size := rget r "size" (.int 100) }
  match tupleOf (rget r "color" (.list [.int 0, .int 255, .int 0])) with
  | Option.none => .error c1
  | some col =>
    let c2 : Config := { c1 with
      color := col
      thickness := rget r "thickness" (.int 2)
      outline_thickness := rget r "outline_thickness" (.int 1)
      show_outline := rget r "show_outline" (.bool false)
      inner_length := rget r "inner_length" (.int 4)
      inner_opacity := rget r "inner_opacity" (.float 1)
      show_inner := rget r "show_inner" (.bool true)
      outer_length := rget r "outer_length" (.int 0)
      outer_opacity := rget r "outer_opacity" (.float 1)
      show_outer := rget r "show_outer" (.bool true)
      show_dot := rget r "show_dot" (.bool false)
      dot_opacity := rget r "dot_opacity" (.float 1)
      dot_size := rget r "dot_size" (.int 2) }
    match uiUpdatesOk c2 with
    | true => .ok c2
    | false => .error c2

/-- What the settings file presents to `load_settings`: no file at all,
a file `json.load` cannot parse, or a parsed record. -/
inductive LoadInput where
  | missing
  | unparseable
  | parsed (r : Record)

/-- `SettingsWindow.load_settings` (lines 585-622).  A missing file
returns before the `try` block without printing (lines 586-587); an
unparseable file raises inside `json.load` before any assignment; with a
parsed record the assignments run as in `loadFromRecord` and any exception
is caught by the handler at line 621, keeping the state reached so far. -/
def loadSettings (cfg : Config) : LoadInput → Config × Outcome
  | .missing => (cfg, .silent)
  | .unparseable => (cfg, .err)
  | .parsed r =>
    match loadFromRecord cfg r with
    | .ok c => (c, .ok)
    | .error c => (c, .err)

/-- `SettingsWindow.update_opacity` (lines 432-442): the slider callbacks
invoke it with `element` one of the three names and `value = v/100` for
the integer slider position `v`.  The label `setText` calls and the
re-render do not touch the configuration. -/
def update_opacity (cfg : Config) (element : String) (value : ℚ) : Config :=
  if element = "inner" then { cfg with inner_opacity := .float value }
  else if element = "outer" then { cfg with outer_opacity := .float value }
  else if element = "dot" then { cfg with dot_opacity := .float value }
  else cfg

/-! ### Images and compositing (lines 63-183) -/

/-- A numpy image: height, width, channel count and a pixel function
`px y x k` giving the byte value of channel `k` at row `y`, column `x`. -/
structure Img where
  h : ℕ
  w : ℕ
  c : ℕ
  px : ℕ → ℕ → ℕ → ℕ

/-- `cv2.cvtColor(image, cv2.COLOR_GRAY2BGRA)` (line 151): replicate the
grey value into the three colour channels and add an opaque alpha. -/
def gray2bgra (i : Img) : Img :=
  ⟨i.h, i.w, 4, fun y x k => if k < 3 then i.px y x 0 else 255⟩

/-- `cv2.cvtColor(image, cv2.COLOR_BGR2BGRA)` (line 154): keep the three
colour channels and append an opaque alpha. -/
def bgr2bgra (i : Img) : Img :=
  ⟨i.h, i.w, 4, fun y x k => if k < 3 then i.px y x k else 255⟩

/-- The channel normalisation at lines 149-154: grayscale and 3-channel
inputs become 4-channel, anything else is left as is. -/
def chanNorm (i : Img) : Img :=
  if i.c = 1 then gray2bgra i
  else if i.c = 3 then bgr2bgra i
  else i

/-- `cv2.convertScaleAbs(x, alpha=1.5, beta=30)` on a byte value
(line 167): `1.5 * v + 30`, rounded to nearest with ties to even
(OpenCV `cvRound`) and saturated to 255.  `twice` is twice the exact
result, so the tie case is `twice` odd. -/
def boost (v : ℕ) : ℕ :=
  let twice := 3 * v + 60
  let r := if twice % 2 = 0 then twice / 2
           else if (twice / 2) % 2 = 0 then twice / 2 else twice / 2 + 1
  min 255 r

/-- `CrosshairOverlay.convert_to_recommended_resolution` (lines 141-183).
The `cv2.resize` call is an external library call, abstracted as the
`resize` parameter (`resize i w h` requests width `w` and height `h`).
After the resize the code indexes channel 3; if fewer than four channels
are present that raises `IndexError`, the handler returns `None`.
Otherwise the three colour channels are boosted and merged with the
untouched alpha channel (lines 163-173). -/
def convert_to_recommended_resolution
    (resize : Img → ℕ → ℕ → Img) (image : Img) : Option Img :=
  let image1 := chanNorm image
  let image2 := resize image1 64 64
  if 4 ≤ image2.c then
    some ⟨image2.h, image2.w, 4,
      fun y x k => if k < 3 then boost (image2.px y x k) else image2.px y x 3⟩
  else Option.none

/-- Lines 72-74: the square canvas dimension for configured size `s` and
custom-image height `h` — `max(s + 32, h + 32)`, bumped to the next odd
number. -/
def canvas_size (s : ℤ) (h : ℤ) : ℤ :=
  let m := max (s + 32) (h + 32)
  if m % 2 = 0 then m + 1 else m

/-- Lines 94-95: the top-left placement offset of a scaled dimension in
the canvas, Python floor division `//`. -/
def placementOffset (canvas dim : ℤ) : ℤ :=
  (canvas - dim).fdiv 2

/-- The display-side state of `CrosshairOverlay`: the configuration, the
loaded custom image, the pixmap handed to the label, and the window
dimensions set by `self.resize`. -/
structure Overlay where
  cfg : Config
  crosshair_image : Option Img
  pixmap : Option Img
  winW : ℕ
  winH : ℕ

/-- `CrosshairOverlay.update_crosshair` (lines 63-119).  With no custom
image loaded, only the debug print runs (lines 113-114).  Otherwise the
canvas dimension is computed from `self.size` (a `TypeError` from a
non-integer size is caught by the handler, line 116), the image is scaled
2x (line 87-91, the `cv2.resize` call again abstracted as `resize`), the
offsets are recomputed from the scaled shape (lines 94-95; the offsets
computed at lines 81-82 from the unscaled shape are overwritten), and the
numpy slice assignment at lines 98-99 copies the scaled image into the
canvas.  The slice assignment succeeds exactly when the scaled 4-channel
block lies inside the canvas; otherwise the shapes do not broadcast, the
`ValueError` is caught, and the previous display state is kept. -/
def update_crosshair (resize : Img → ℕ → ℕ → Img) (o : Overlay) : Overlay :=
  match o.crosshair_image with
  | Option.none => o
  | some ci =>
    match o.cfg.size with
    | .int s =>
      let n := canvas_size s (ci.h : ℤ)
      let scaled := resize ci (ci.w * 2) (ci.h * 2)
      let yOff := placementOffset n (scaled.h : ℤ)
      let xOff := placementOffset n (scaled.w : ℤ)
      if 0 ≤ yOff ∧ (yOff + scaled.h : ℤ) ≤ n ∧
         0 ≤ xOff ∧ (xOff + scaled.w : ℤ) ≤ n ∧ scaled.c = 4 then
        let canvas : Img := ⟨n.toNat, n.toNat, 4,
          fun y x k =>
            if yOff ≤ (y : ℤ) ∧ (y : ℤ) < yOff + scaled.h ∧
               xOff ≤ (x : ℤ) ∧ (x : ℤ) < xOff + scaled.w then
              scaled.px ((y : ℤ) - yOff).toNat ((x : ℤ) - xOff).toNat k
            else 0⟩
        { o with pixmap := some canvas, winW := n.toNat, winH := n.toNat }
      else o
    | _ => o

/-! ### Concrete fixtures used by the theorems -/

/-- A resize function with the shape behaviour of `cv2.resize`
(requested dimensions, channel count preserved); used to instantiate the
abstract resize parameter on concrete inputs. -/
def resizeStub (i : Img) (w h : ℕ) : Img :=
  ⟨h, w, i.c, fun y x k => i.px (y * i.h / max h 1) (x * i.w / max w 1) k⟩

/-- The code fragment from the specification's decoder round-trip
property. -/
def exCode : List Char := "0;P;x;0t;1;0l;4;0o;2;0a;75;0f;0;1t;3;1o;50;1a;2".data

/-- A crosshair code whose inner-opacity percentage exceeds 100. -/
def exCode150 : List Char := "0;P;x;0t;1;0l;4;0o;2;0a;150;0f;0;1t;3;1o;50;1a;2".data

/-- A parsed settings record with a fresh size and a non-iterable color:
`tuple(5)` raises `TypeError` after `size` has already been assigned. -/
def badRecord : Record := [("size", .int 7), ("color", .int 5)]

/-- The normalised 64x64 transparent-ish image produced by the converter,
reduced to its shape (pixel values irrelevant to the sizing claims). -/
def img64 : Img := ⟨64, 64, 4, fun _ _ _ => 0⟩

/-- Overlay state with the minimum configured size 50 and a normalised
custom image loaded. -/
def overlay50 : Overlay :=
  ⟨{ defaultConfig with size := .int 50 }, some img64, Option.none, 0, 0⟩

/-- Overlay state at start-up: default configuration, no custom image. -/
def overlayDefault : Overlay :=
  ⟨defaultConfig, Option.none, Option.none, 0, 0⟩

/-- A concrete 2x2 3-channel input image. -/
def imgRGB : Img := ⟨2, 2, 3, fun _ _ _ => 10⟩

/-- The normaliser output on `imgRGB` through `resizeStub`. -/
def convOut : Img :=
  ⟨64, 64, 4, fun y x k =>
    if k < 3 then boost ((resizeStub (chanNorm imgRGB) 64 64).px y x k)
    else (resizeStub (chanNorm imgRGB) 64 64).px y x 3⟩

/-- The value is a float that is at least zero. -/
def opacityNonneg (p : PyVal) : Prop :=
  ∃ q, p = .float q ∧ 0 ≤ q

/-- The value is a float inside the unit interval. -/
def opacityInUnit (p : PyVal) : Prop :=
  ∃ q, p = .float q ∧ 0 ≤ q ∧ q ≤ 1

/-- The three opacity fields are nonnegative floats. -/
def opacitiesNonneg (c : Config) : Prop :=
  opacityNonneg c.inner_opacity ∧ opacityNonneg c.outer_opacity ∧
    opacityNonneg c.dot_opacity

/-- The three opacity fields are floats in the unit interval. -/
def opacitiesInUnit (c : Config) : Prop :=
  opacityInUnit c.inner_opacity ∧ opacityInUnit c.outer_opacity ∧
    opacityInUnit c.dot_opacity

/-! ### Helper lemmas about the pattern matcher

The acceptance robustness claims need that a successful search survives
appending and prepending arbitrary text.  The key facts: a matched literal
extends exactly; a matched digit run either ends at a non-digit of the
original input (and extends exactly) or sits at the end of the input (and
still matches, possibly absorbing leading digits of the appended text). -/

theorem matchLit_append (lit : List Char) :
    ∀ (l r post : List Char), matchLit lit l = some r →
      matchLit lit (l ++ post) = some (r ++ post) := by
  induction lit with
  | nil =>
    intro l r post h
    simp [matchLit] at h
    subst h
    rfl
  | cons c cs ih =>
    intro l r post h
    cases l with
    | nil => simp [matchLit] at h
    | cons x xs =>
      simp only [matchLit] at h ⊢
      by_cases hx : x = c
      · rw [if_pos hx] at h ⊢
        exact ih xs r post h
      · rw [if_neg hx] at h
        exact absurd h (by simp)

theorem dropWhile_head_false (p : Char → Bool) :
    ∀ (l : List Char) (c : Char) (t : List Char),
      l.dropWhile p = c :: t → p c = false := by
  intro l
  induction l with
  | nil => intro c t h; simp [List.dropWhile] at h
  | cons x xs ih =>
    intro c t h
    simp only [List.dropWhile] at h
    cases hx : p x with
    | true => rw [hx] at h; exact ih c t h
    | false =>
      rw [hx] at h
      injection h with h1 _
      subst h1
      exact hx

theorem takeWhile_append_stop (p : Char → Bool) :
    ∀ (ds r : List Char), (∀ x ∈ ds, p x = true) →
      (∀ (c : Char) (t : List Char), r = c :: t → p c = false) →
      (ds ++ r).takeWhile p = ds ∧ (ds ++ r).dropWhile p = r := by
  intro ds
  induction ds with
  | nil =>
    intro r _ hr
    cases r with
    | nil => simp
    | cons c t => simp [List.takeWhile, List.dropWhile, hr c t rfl]
  | cons d ds ih =>
    intro r hall hr
    have hd : p d = true := hall d (by simp)
    have h2 := ih r (fun x hx => hall x (by simp [hx])) hr
    simp [List.takeWhile, List.dropWhile, hd, h2.1, h2.2]

theorem takeWhile_append_all (p : Char → Bool) :
    ∀ (ds post : List Char), (∀ x ∈ ds, p x = true) →
      (ds ++ post).takeWhile p = ds ++ post.takeWhile p := by
  intro ds
  induction ds with
  | nil => intro post _; simp
  | cons d ds ih =>
    intro post hall
    have hd : p d = true := hall d (by simp)
    simp [List.takeWhile, hd, ih post (fun x hx => hall x (by simp [hx]))]

theorem matchNum_append (l : List Char) (n : ℕ) (r post : List Char)
    (h : matchNum l = some (n, r)) :
    (∃ n2 r2, matchNum (l ++ post) = some (n2, r2)) ∧
      (r ≠ [] → matchNum (l ++ post) = some (n, r ++ post)) := by
  have hall : ∀ x ∈ l.takeWhile Char.isDigit, Char.isDigit x = true :=
    fun x hx => List.mem_takeWhile_imp hx
  have hsplit : l.takeWhile Char.isDigit ++ l.dropWhile Char.isDigit = l :=
    List.takeWhile_append_dropWhile Char.isDigit l
  simp only [matchNum] at h
  by_cases hds : (l.takeWhile Char.isDigit).isEmpty
  · rw [if_pos hds] at h; exact absurd h (by simp)
  · rw [if_neg hds] at h
    simp only [Option.some.injEq, Prod.mk.injEq] at h
    obtain ⟨hn, hr⟩ := h
    have hdsne : l.takeWhile Char.isDigit ≠ [] := by
      intro h0; rw [h0] at hds; exact hds rfl
    obtain ⟨ds, hdef⟩ : ∃ ds, l.takeWhile Char.isDigit = ds := ⟨_, rfl⟩
    rw [hdef] at hall hsplit hn hdsne
    cases hdrop : l.dropWhile Char.isDigit with
    | nil =>
      have hl : l = ds := by rw [← hsplit, hdrop, List.append_nil]
      have htw : (l ++ post).takeWhile Char.isDigit
          = ds ++ post.takeWhile Char.isDigit := by
        rw [hl]
        exact takeWhile_append_all Char.isDigit ds post hall
      have hne2 : ¬((l ++ post).takeWhile Char.isDigit).isEmpty := by
        rw [htw]
        cases h0 : ds with
        | nil => exact absurd h0 hdsne
        | cons a b => simp
      constructor
      · exact ⟨natOfDigits ((l ++ post).takeWhile Char.isDigit),
          (l ++ post).dropWhile Char.isDigit, by simp only [matchNum, if_neg hne2]⟩
      · intro hrne
        rw [← hr, hdrop] at hrne
        exact absurd rfl hrne
    | cons c t =>
      have hc : Char.isDigit c = false := dropWhile_head_false _ l c t hdrop
      have hl : l = ds ++ (c :: t) := by rw [← hsplit, hdrop]
      have happ : l ++ post = ds ++ (c :: (t ++ post)) := by
        rw [hl]; simp
      have hstop := takeWhile_append_stop Char.isDigit ds
        (c :: (t ++ post)) hall
        (by intro c2 t2 heq; injection heq with h1 _; subst h1; exact hc)
      have hmain : matchNum (l ++ post) = some (n, r ++ post) := by
        simp only [matchNum, happ, hstop.1, hstop.2]
        rw [if_neg (by intro h0; rw [List.isEmpty_iff] at h0; exact hdsne h0)]
        rw [hn, ← hr, hdrop]
        simp
      exact ⟨⟨n, r ++ post, hmain⟩, fun _ => hmain⟩

theorem matchFields_cons_eq (lit : List Char) (rest : List (List Char))
    (l l1 : List Char) (n : ℕ) (l2 : List Char) (ns : List ℕ) (r : List Char)
    (h1 : matchLit lit l = some l1) (h2 : matchNum l1 = some (n, l2))
    (h3 : matchFields rest l2 = some (ns, r)) :
    matchFields (lit :: rest) l = some (n :: ns, r) := by
  simp [matchFields, h1, h2, h3]

theorem matchFields_append (lits : List (List Char)) (hne : ∀ lit ∈ lits, lit ≠ []) :
    ∀ (l : List Char) (ns : List ℕ) (r post : List Char),
      matchFields lits l = some (ns, r) →
      ∃ ns2 r2, matchFields lits (l ++ post) = some (ns2, r2) := by
  induction lits with
  | nil => intro l ns r post _; exact ⟨[], l ++ post, rfl⟩
  | cons lit rest ih =>
    intro l ns r post h
    cases hlit : matchLit lit l with
    | none => simp [matchFields, hlit] at h
    | some l1 =>
      cases hnum : matchNum l1 with
      | none => simp [matchFields, hlit, hnum] at h
      | some nl2 =>
        obtain ⟨n, l2⟩ := nl2
        cases hrec : matchFields rest l2 with
        | none => simp [matchFields, hlit, hnum, hrec] at h
        | some nsr =>
          obtain ⟨ns3, l3⟩ := nsr
          have hlitext := matchLit_append lit l l1 post hlit
          cases rest with
          | nil =>
            obtain ⟨⟨n2, r2, hnum2⟩, _⟩ := matchNum_append l1 n l2 post hnum
            exact ⟨[n2], r2, matchFields_cons_eq lit [] (l ++ post) (l1 ++ post)
              n2 r2 [] r2 hlitext hnum2 rfl⟩
          | cons lit2 rest2 =>
            have hl2ne : l2 ≠ [] := by
              intro h0
              subst h0
              have hlit2ne := hne lit2 (by simp)
              cases hlit2 : lit2 with
              | nil => exact hlit2ne hlit2
              | cons a b =>
                subst hlit2
                simp [matchFields, matchLit] at hrec
            obtain ⟨_, hexact⟩ := matchNum_append l1 n l2 post hnum
            have hnum2 := hexact hl2ne
            obtain ⟨ns4, r4, hrec2⟩ :=
              ih (fun x hx => hne x (by simp [hx])) l2 ns3 l3 post hrec
            exact ⟨n :: ns4, r4, matchFields_cons_eq lit (lit2 :: rest2) (l ++ post)
              (l1 ++ post) n (l2 ++ post) ns4 r4 hlitext hnum2 hrec2⟩

theorem tryGap_append (l : List Char) (ns : List ℕ) (post : List Char)
    (h : tryGap l = some ns) : ∃ ns2, tryGap (l ++ post) = some ns2 := by
  induction l with
  | nil =>
    rw [show tryGap [] = Option.none from by decide] at h
    exact absurd h (by simp)
  | cons c t ih =>
    simp only [tryGap] at h
    cases hmt : matchTail (c :: t) with
    | some nsr =>
      obtain ⟨ns0, r⟩ := nsr
      obtain ⟨ns2, r2, hmt2⟩ :=
        matchFields_append valorantLits (by decide) (c :: t) ns0 r post hmt
      rw [List.cons_append] at hmt2
      refine ⟨ns2, ?_⟩
      show tryGap (c :: (t ++ post)) = some ns2
      simp only [tryGap, matchTail]
      rw [hmt2]
    | none =>
      rw [hmt] at h
      by_cases hc : c = '\n'
      · rw [if_pos hc] at h; exact absurd h (by simp)
      · rw [if_neg hc] at h
        obtain ⟨ns2, h2⟩ := ih h
        cases hmt2 : matchTail (c :: (t ++ post)) with
        | some nsr2 =>
          obtain ⟨a, b⟩ := nsr2
          refine ⟨a, ?_⟩
          show tryGap (c :: (t ++ post)) = some a
          simp only [tryGap, matchTail]
          rw [matchTail] at hmt2
          rw [hmt2]
        | none =>
          refine ⟨ns2, ?_⟩
          show tryGap (c :: (t ++ post)) = some ns2
          simp only [tryGap, matchTail]
          rw [matchTail] at hmt2
          rw [hmt2, if_neg hc]
          exact h2

theorem searchFrom_cons (c : Char) (t : List Char)
    (h : (searchFrom t).isSome) : (searchFrom (c :: t)).isSome := by
  simp only [searchFrom]
  split
  · split
    · simp
    · exact h
  · exact h

theorem searchFrom_append (l : List Char) (ns : List ℕ) (post : List Char)
    (h : searchFrom l = some ns) : (searchFrom (l ++ post)).isSome := by
  induction l with
  | nil => simp [searchFrom] at h
  | cons c t ih =>
    simp only [searchFrom] at h
    show (searchFrom (c :: (t ++ post))).isSome
    simp only [searchFrom]
    split at h
    next rest hlit =>
      have hlit2 := matchLit_append pMarker (c :: t) rest post hlit
      rw [List.cons_append] at hlit2
      split at h
      next ns0 hgap =>
        obtain ⟨ns2, hgap2⟩ := tryGap_append rest ns0 post hgap
        split
        next rest2 hlit3 =>
          rw [hlit2] at hlit3
          injection hlit3 with hr2
          subst hr2
          split
          next => simp
          next hgap3 => rw [hgap2] at hgap3; exact absurd hgap3 (by simp)
        next hlit3 => rw [hlit2] at hlit3; exact absurd hlit3 (by simp)
      next hgap =>
        have hih := ih h
        split
        next rest2 hlit3 =>
          split
          next => simp
          next => exact hih
        next => exact hih
    next hlit =>
      have hih := ih h
      split
      next rest2 hlit3 =>
        split
        next => simp
        next => exact hih
      next => exact hih

theorem searchFrom_prepend (pre l : List Char)
    (h : (searchFrom l).isSome) : (searchFrom (pre ++ l)).isSome := by
  induction pre with
  | nil => exact h
  | cons c t ih => exact searchFrom_cons c (t ++ l) ih

/-- A successful search survives arbitrary surrounding text: the pattern
is located by substring search, not whole-string validation. -/
theorem searchValorant_embed (pre s post : List Char) (ns : List ℕ)
    (h : searchValorant s = some ns) :
    (searchValorant (pre ++ s ++ post)).isSome := by
  have h1 : (searchFrom (s ++ post)).isSome := searchFrom_append s ns post h
  rw [List.append_assoc]
  exact searchFrom_prepend pre (s ++ post) h1

theorem matchFields_length (lits : List (List Char)) :
    ∀ (l : List Char) (ns : List ℕ) (r : List Char),
      matchFields lits l = some (ns, r) → ns.length = lits.length := by
  induction lits with
  | nil =>
    intro l ns r h
    simp [matchFields] at h
    rw [h.1]
    rfl
  | cons lit rest ih =>
    intro l ns r h
    cases hlit : matchLit lit l with
    | none => simp [matchFields, hlit] at h
    | some l1 =>
      cases hnum : matchNum l1 with
      | none => simp [matchFields, hlit, hnum] at h
      | some nl2 =>
        obtain ⟨n, l2⟩ := nl2
        cases hrec : matchFields rest l2 with
        | none => simp [matchFields, hlit, hnum, hrec] at h
        | some nsr =>
          obtain ⟨ns3, l3⟩ := nsr
          have h2 : matchFields (lit :: rest) l = some (n :: ns3, l3) :=
            matchFields_cons_eq lit rest l l1 n l2 ns3 l3 hlit hnum hrec
          rw [h2] at h
          simp only [Option.some.injEq, Prod.mk.injEq] at h
          rw [← h.1]
          simp [ih l2 ns3 l3 hrec]

theorem tryGap_tail (l : List Char) (ns : List ℕ) (h : tryGap l = some ns) :
    ∃ l2 r, matchTail l2 = some (ns, r) := by
  induction l with
  | nil =>
    rw [show tryGap [] = Option.none from by decide] at h
    exact absurd h (by simp)
  | cons c t ih =>
    simp only [tryGap] at h
    split at h
    next ns0 r hmt =>
      injection h with h1
      subst h1
      exact ⟨c :: t, r, hmt⟩
    next hmt =>
      split at h
      · exact absurd h (by simp)
      · exact ih h

theorem searchFrom_tail (l : List Char) (ns : List ℕ) (h : searchFrom l = some ns) :
    ∃ l2, tryGap l2 = some ns := by
  induction l with
  | nil => simp [searchFrom] at h
  | cons c t ih =>
    simp only [searchFrom] at h
    split at h
    next rest hlit =>
      split at h
      next ns0 hgap =>
        injection h with h1
        subst h1
        exact ⟨rest, hgap⟩
      next hgap => exact ih h
    next hlit => exact ih h

/-- The fixed pattern has exactly eight capture groups. -/
theorem searchValorant_caps (code : List Char) (ns : List ℕ)
    (h : searchValorant code = some ns) : ns.length = 8 := by
  obtain ⟨l2, hgap⟩ := searchFrom_tail code ns h
  obtain ⟨l3, r, hmt⟩ := tryGap_tail l2 ns hgap
  have := matchFields_length valorantLits l3 ns r hmt
  simpa [valorantLits] using this

theorem list_length_eight (ns : List ℕ) (h : ns.length = 8) :
    ∃ a b c d e f g k, ns = [a, b, c, d, e, f, g, k] := by
  rcases ns with _ | ⟨a, _ | ⟨b, _ | ⟨c, _ | ⟨d, _ | ⟨e, _ | ⟨f, _ | ⟨g, _ | ⟨k, _ | ⟨m, rest⟩⟩⟩⟩⟩⟩⟩⟩⟩ <;>
    simp at h
  exact ⟨a, b, c, d, e, f, g, k, rfl⟩

/-- On a match, `parse_valorant_code` assigns exactly the six derived
fields; the parsed inner offset (group 5) influences nothing. -/
theorem parse_eq_of_search (cfg : Config) (code : List Char)
    (o il ol iop ioff othk oop oopm : ℕ)
    (hm : searchValorant code = some [o, il, ol, iop, ioff, othk, oop, oopm]) :
    parse_valorant_code cfg code =
      ({ cfg with
          show_outline := .bool (o ≠ 0)
          inner_length := .int (il * 2)
          outer_length := .int (ol * 2)
          inner_opacity := .float ((iop : ℚ) / 100)
          outline_thickness := .int (othk : ℤ)
          outer_opacity := .float (((oop : ℚ) * (oopm : ℚ)) / 100) }, .ok) := by
  have hne : code ≠ [] := by
    intro h
    subst h
    simp [searchValorant, searchFrom] at hm
  unfold parse_valorant_code
  rw [if_neg hne, hm]

/-- A non-empty code is accepted exactly when the substring search
succeeds. -/
theorem parse_accepts_iff (cfg : Config) (code : List Char) (hne : code ≠ []) :
    (parse_valorant_code cfg code).2 = .ok ↔ (searchValorant code).isSome := by
  unfold parse_valorant_code
  rw [if_neg hne]
  cases hs : searchValorant code with
  | none => simp
  | some ns =>
    have h8 := searchValorant_caps code ns hs
    obtain ⟨a, b, c, d, e, f, g, k, rfl⟩ := list_length_eight ns h8
    simp

/-- Saving and immediately reloading restores every scalar field: the
record holds every field verbatim, `tuple` is the identity on the colour
sequence, `outline_color` is simply never reassigned, and the widget
updates cannot alter the already-final configuration whether or not they
raise. -/
theorem load_save_roundtrip (cfg : Config) (h : ∃ l, cfg.color = .list l) :
    (loadSettings cfg (.parsed (save_settings cfg))).1 = cfg := by
  obtain ⟨l, hcol⟩ := h
  cases cfg with
  | mk s col oc th oth so il io si olg oo sot sd dop ds =>
    simp only [Config.color] at hcol
    subst hcol
    have key : loadFromRecord
        ⟨s, .list l, oc, th, oth, so, il, io, si, olg, oo, sot, sd, dop, ds⟩
        (save_settings ⟨s, .list l, oc, th, oth, so, il, io, si, olg, oo, sot, sd, dop, ds⟩) =
        (match uiUpdatesOk ⟨s, .list l, oc, th, oth, so, il, io, si, olg, oo, sot, sd, dop, ds⟩ with
          | true => Except.ok ⟨s, .list l, oc, th, oth, so, il, io, si, olg, oo, sot, sd, dop, ds⟩
          | false => Except.error ⟨s, .list l, oc, th, oth, so, il, io, si, olg, oo, sot, sd, dop, ds⟩) := rfl
    show (match loadFromRecord _ _ with
      | Except.ok c => (c, Outcome.ok)
      | Except.error c => (c, Outcome.err)).1 = _
    rw [key]
    cases uiUpdatesOk ⟨s, .list l, oc, th, oth, so, il, io, si, olg, oo, sot, sd, dop, ds⟩ <;> rfl

/-! ### The claims -/

/-- C1: for every input accepted by the decoder, `parse_valorant_code`
sets `showOutline = (outlineEnabled != 0)`, `innerLength = innerLen * 2`,
`outerLength = outerLen * 2`, `innerOpacity = innerOpacityPct / 100`,
copies `outlineThickness` verbatim, and sets
`outerOpacity = (outerOpacityPct * outerOpacityMultiplier) / 100`, while
the parsed inner offset (the `ioff` capture) is applied to no field — the
result does not depend on it. -/
theorem claim1_decoder_valid (cfg : Config) (code : List Char)
    (o il ol iop ioff othk oop oopm : ℕ)
    (hm : searchValorant code = some [o, il, ol, iop, ioff, othk, oop, oopm]) :
    parse_valorant_code cfg code =
      ({ cfg with
          show_outline := .bool (o ≠ 0)
          inner_length := .int (il * 2)
          outer_length := .int (ol * 2)
          inner_opacity := .float ((iop : ℚ) / 100)
          outline_thickness := .int (othk : ℤ)
          outer_opacity := .float (((oop : ℚ) * (oopm : ℚ)) / 100) }, .ok) :=
  parse_eq_of_search cfg code o il ol iop ioff othk oop oopm hm

/-- C1 witness: decoding `0;P;x;0t;1;0l;4;0o;2;0a;75;0f;0;1t;3;1o;50;1a;2`
yields showOutline true, innerLength 8, outerLength 4, innerOpacity 0.75,
outlineThickness 3 and outerOpacity 1.0. -/
theorem claim1_decoder_valid_witness :
    parse_valorant_code defaultConfig exCode =
      ({ defaultConfig with
          show_outline := .bool true
          inner_length := .int 8
          outer_length := .int 4
          inner_opacity := .float (3 / 4)
          outline_thickness := .int 3
          outer_opacity := .float 1 }, .ok) := by
  rw [claim1_decoder_valid defaultConfig exCode 1 4 2 75 0 3 50 2 (by decide)]
  norm_num

/-- C2 (code bug): at the minimum configured size 50 with a normalised
64x64 custom image, the canvas is 97 but the scaled bitmap is 128 wide,
so the placement offset is -16 on both axes: it is negative and the
scaled bitmap cannot fit, the numpy copy raises, and the caught exception
leaves the display state unchanged — contradicting the claimed
non-negativity and containment. -/
theorem claim2_centering_overflow :
    canvas_size 50 64 = 97 ∧
    placementOffset 97 128 = -16 ∧
    placementOffset 97 128 < 0 ∧
    update_crosshair resizeStub overlay50 = overlay50 :=
  ⟨by decide, by decide, by decide, rfl⟩

/-- C3: saving a configuration and immediately reloading it reproduces
every scalar field exactly.  The hypothesis — the colour field holds a
sequence — is satisfied by every reachable configuration, since every
writer of `color` stores a 3-element tuple. -/
theorem claim3_save_load_roundtrip (cfg : Config)
    (h : ∃ l, cfg.color = .list l) :
    (loadSettings cfg (.parsed (save_settings cfg))).1 = cfg :=
  load_save_roundtrip cfg h

/-- C3 witness: the round trip at the default configuration. -/
theorem claim3_save_load_roundtrip_witness :
    (loadSettings defaultConfig (.parsed (save_settings defaultConfig))).1 = defaultConfig :=
  claim3_save_load_roundtrip defaultConfig ⟨[.int 0, .int 255, .int 0], rfl⟩

/-- C4 counterexample: the record with `size = 7` and a non-iterable
`color = 5` is a failing load (the outcome is the caught-exception
diagnostic), yet the `size` field has been changed from its prior value
100 to 7 — the load is partially applied. -/
theorem claim4_partial_write_cx :
    (loadSettings defaultConfig (.parsed badRecord)).2 = .err ∧
    (loadSettings defaultConfig (.parsed badRecord)).1.size = .int 7 ∧
    defaultConfig.size = .int 100 ∧ PyVal.int 7 ≠ PyVal.int 100 := by
  decide

/-- C4 amended: a missing settings file and an unparseable settings file
leave every field unchanged and never crash, but a parsed record whose
field value raises partway through the assignment sequence (here the
non-iterable colour) keeps the assignments made before the raise: the
`size` field is updated, everything else is untouched. -/
theorem claim4_amended_error_containment : ∀ cfg : Config,
    loadSettings cfg .missing = (cfg, .silent) ∧
    loadSettings cfg .unparseable = (cfg, .err) ∧
    loadSettings cfg (.parsed badRecord) = ({ cfg with size := .int 7 }, .err) :=
  fun _ => ⟨rfl, rfl, rfl⟩

/-- C4 witness: the amended behaviour at the default configuration. -/
theorem claim4_amended_error_containment_witness :
    loadSettings defaultConfig (.parsed badRecord) =
      ({ defaultConfig with size := .int 7 }, .err) :=
  (claim4_amended_error_containment defaultConfig).2.2

/-- C5: for every configured size `s` and image height `h` the canvas
dimension equals `max (s+32) (h+32)` bumped by one when even, hence it is
always odd and at least `max s h + 32`. -/
theorem claim5_canvas_odd : ∀ s h : ℤ,
    canvas_size s h % 2 = 1 ∧
    max s h + 32 ≤ canvas_size s h ∧
    canvas_size s h =
      (if max (s + 32) (h + 32) % 2 = 0 then max (s + 32) (h + 32) + 1
       else max (s + 32) (h + 32)) := by
  intro s h
  refine ⟨?_, ?_, rfl⟩ <;> (simp only [canvas_size]; split <;> omega)

/-- C5 witness: the canvas dimension at the default size with a
normalised image. -/
theorem claim5_canvas_odd_witness :
    canvas_size 100 64 % 2 = 1 ∧
    max 100 64 + 32 ≤ canvas_size 100 64 ∧
    canvas_size 100 64 =
      (if max (100 + 32) (64 + 32) % 2 = 0 then max (100 + 32) (64 + 32) + 1
       else max (100 + 32) (64 + 32)) :=
  claim5_canvas_odd 100 64

/-- C6: an input on which the pattern search fails leaves every
configuration field unchanged and reports the invalid-format diagnostic
instead of crashing. -/
theorem claim6_decoder_rejection (cfg : Config) (code : List Char)
    (hne : code ≠ []) (hm : searchValorant code = Option.none) :
    parse_valorant_code cfg code = (cfg, .invalid) := by
  unfold parse_valorant_code
  rw [if_neg hne, hm]

/-- C6 witness: the decoder rejects `hello` and changes nothing. -/
theorem claim6_decoder_rejection_witness :
    parse_valorant_code defaultConfig "hello".data = (defaultConfig, .invalid) :=
  claim6_decoder_rejection defaultConfig "hello".data (by decide) (by decide)

/-- C7 counterexample: decoding a code with inner opacity percentage 150
drives `innerOpacity` to 1.5, outside the claimed interval `[0, 1]`. -/
theorem claim7_opacity_range_cx :
    (parse_valorant_code defaultConfig exCode150).1.inner_opacity =
      .float ((150 : ℚ) / 100) ∧ ¬((150 : ℚ) / 100 ≤ 1) := by
  constructor
  · rw [parse_eq_of_search defaultConfig exCode150 1 4 2 150 0 3 50 2 (by decide)]
    norm_num
  · norm_num

/-- C7 amended: the slider callbacks (integer positions 0-100 divided by
100) keep all three opacities inside `[0, 1]`; the decoder and a reload
of a freshly saved configuration keep them nonnegative, but the decoder
can exceed 1 (see the counterexample). -/
theorem claim7_amended_opacity_bounds :
    (∀ (cfg : Config) (el : String) (v : ℚ), 0 ≤ v → v ≤ 100 →
      opacitiesInUnit cfg → opacitiesInUnit (update_opacity cfg el (v / 100))) ∧
    (∀ (cfg : Config) (code : List Char),
      opacitiesNonneg cfg → opacitiesNonneg (parse_valorant_code cfg code).1) ∧
    (∀ cfg : Config, (∃ l, cfg.color = .list l) → opacitiesNonneg cfg →
      opacitiesNonneg (loadSettings cfg (.parsed (save_settings cfg))).1) := by
  refine ⟨?_, ?_, ?_⟩
  · intro cfg el v h0 h1 hin
    obtain ⟨hi, ho, hd⟩ := hin
    have hv : opacityInUnit (.float (v / 100)) :=
      ⟨v / 100, rfl, div_nonneg h0 (by norm_num),
        (div_le_one (by norm_num)).2 h1⟩
    unfold update_opacity
    split
    · exact ⟨hv, ho, hd⟩
    · split
      · exact ⟨hi, hv, hd⟩
      · split
        · exact ⟨hi, ho, hv⟩
        · exact ⟨hi, ho, hd⟩
  · intro cfg code hnn
    obtain ⟨hi, ho, hd⟩ := hnn
    unfold parse_valorant_code
    split
    · exact ⟨hi, ho, hd⟩
    · split
      · exact ⟨⟨_, rfl, div_nonneg (Nat.cast_nonneg _) (by norm_num)⟩,
          ⟨_, rfl, div_nonneg (mul_nonneg (Nat.cast_nonneg _) (Nat.cast_nonneg _)) (by norm_num)⟩,
          hd⟩
      · exact ⟨hi, ho, hd⟩
      · exact ⟨hi, ho, hd⟩
  · intro cfg hcol hnn
    rw [load_save_roundtrip cfg hcol]
    exact hnn

/-- C7 amended witness: a slider write and the exceeding decoder write at
concrete inputs. -/
theorem claim7_amended_opacity_bounds_witness :
    opacitiesInUnit (update_opacity defaultConfig "inner" (50 / 100)) ∧
    opacitiesNonneg (parse_valorant_code defaultConfig exCode150).1 :=
  ⟨claim7_amended_opacity_bounds.1 defaultConfig "inner" 50 (by norm_num) (by norm_num)
      ⟨⟨1, rfl, by norm_num, by norm_num⟩, ⟨1, rfl, by norm_num, by norm_num⟩,
        ⟨1, rfl, by norm_num, by norm_num⟩⟩,
   claim7_amended_opacity_bounds.2.1 defaultConfig exCode150
      ⟨⟨1, rfl, by norm_num⟩, ⟨1, rfl, by norm_num⟩, ⟨1, rfl, by norm_num⟩⟩⟩

/-- C8: whenever the normaliser succeeds, the output is a 64x64 4-channel
bitmap; a single-channel input is expanded to four channels with opaque
alpha, a 3-channel input gets an appended opaque alpha, the saturating
linear boost touches only the three colour channels, and the output alpha
equals the alpha of the resized input unchanged.  The `resize` parameter
stands for `cv2.resize`, which returns the requested dimensions and keeps
the channel count. -/
theorem claim8_normalizer_shape (resize : Img → ℕ → ℕ → Img)
    (hres : ∀ i a b, (resize i a b).h = b ∧ (resize i a b).w = a ∧ (resize i a b).c = i.c)
    (image out : Img)
    (h : convert_to_recommended_resolution resize image = some out) :
    out.h = 64 ∧ out.w = 64 ∧ out.c = 4 ∧
    (∀ y x, out.px y x 3 = (resize (chanNorm image) 64 64).px y x 3) ∧
    (∀ y x k, k < 3 → out.px y x k = boost ((resize (chanNorm image) 64 64).px y x k)) ∧
    (image.c = 1 → chanNorm image = gray2bgra image) ∧
    (image.c = 3 → chanNorm image = bgr2bgra image) ∧
    (image.c = 1 ∨ image.c = 3 → ∀ y x, (chanNorm image).px y x 3 = 255) := by
  simp only [convert_to_recommended_resolution] at h
  split at h
  · injection h with hout
    subst hout
    obtain ⟨hh, hw, _⟩ := hres (chanNorm image) 64 64
    refine ⟨hh, hw, rfl, ?_, ?_, ?_, ?_, ?_⟩
    · intro y x; simp
    · intro y x k hk; simp [hk]
    · intro h1; simp [chanNorm, h1]
    · intro h3; simp [chanNorm, h3]
    · intro h13 y x
      rcases h13 with h1 | h3
      · simp [chanNorm, h1, gray2bgra]
      · simp [chanNorm, h3, bgr2bgra]
  · exact absurd h (by simp)

/-- C8 witness: the normaliser applied to a concrete 2x2 3-channel image
through a resize with the correct shape behaviour. -/
theorem claim8_normalizer_shape_witness :
    convOut.h = 64 ∧ convOut.w = 64 ∧ convOut.c = 4 :=
  ⟨(claim8_normalizer_shape resizeStub (fun _ _ _ => ⟨rfl, rfl, rfl⟩) imgRGB convOut rfl).1,
   (claim8_normalizer_shape resizeStub (fun _ _ _ => ⟨rfl, rfl, rfl⟩) imgRGB convOut rfl).2.1,
   (claim8_normalizer_shape resizeStub (fun _ _ _ => ⟨rfl, rfl, rfl⟩) imgRGB convOut rfl).2.2.1⟩

/-- C9: `update_crosshair` with no custom image loaded changes nothing:
the pixmap, the window dimensions and every configuration field keep
their previous values. -/
theorem claim9_no_image_noop (resize : Img → ℕ → ℕ → Img) (o : Overlay)
    (h : o.crosshair_image = Option.none) :
    update_crosshair resize o = o := by
  unfold update_crosshair
  rw [h]

/-- C9 witness: the start-up overlay state is a fixed point. -/
theorem claim9_no_image_noop_witness :
    update_crosshair resizeStub overlayDefault = overlayDefault :=
  claim9_no_image_noop resizeStub overlayDefault rfl

/-- C10: the empty input is a silent no-op signalling neither success nor
failure; a non-empty input is accepted exactly when the substring search
succeeds; and a code embedded in arbitrary leading and trailing text is
still accepted — acceptance is substring containment, not whole-string
validation. -/
theorem claim10_substring_acceptance :
    (∀ cfg : Config, parse_valorant_code cfg [] = (cfg, .silent)) ∧
    Outcome.silent ≠ Outcome.ok ∧ Outcome.silent ≠ Outcome.invalid ∧
    (∀ (cfg : Config) (code : List Char), code ≠ [] →
      ((parse_valorant_code cfg code).2 = .ok ↔ (searchValorant code).isSome)) ∧
    (∀ (pre s post : List Char) (ns : List ℕ), searchValorant s = some ns →
      (searchValorant (pre ++ s ++ post)).isSome) :=
  ⟨fun _ => rfl, by decide, by decide,
   fun cfg code hne => parse_accepts_iff cfg code hne,
   fun pre s post ns h => searchValorant_embed pre s post ns h⟩

/-- C10 witness: the empty-input no-op and acceptance of the example code
surrounded by junk text. -/
theorem claim10_substring_acceptance_witness :
    parse_valorant_code defaultConfig [] = (defaultConfig, .silent) ∧
    (searchValorant ("junk ".data ++ exCode ++ " tail".data)).isSome :=
  ⟨claim10_substring_acceptance.1 defaultConfig,
   claim10_substring_acceptance.2.2.2.2 "junk ".data exCode " tail".data
     [1, 4, 2, 75, 0, 3, 50, 2] (by decide)⟩

end CustomCrosshair
